import Mathlib

/-!
Verification of the screenplay-editor core (block classification, pagination,
numbering, editing controller, and the per-scene save path) against its
specification.  The TypeScript sources are embedded shallowly:

* strings are Lean `String`s (JS `.length` is modelled by the number of
  characters, JS `Blob` byte size by `String.utf8ByteSize`; all inputs of
  interest are ASCII, where the two notions agree with JS);
* the fractional per-type block heights (2.5, 2.0, 1.8 line-units) are scaled
  by 10 and kept in `Nat` (25, 20, 18), so every height comparison is exact;
  the page budget 55 becomes 550;
* the remote store used by `saveScene` is a record of the documents the
  function reads, and the writes it issues are returned as an explicit trace.
-/

namespace Screenplay

/-- A screenplay block, from `src/types/index.ts`. -/
structure Block where
  id : String
  type : String
  content : String
  number : Option Nat := none
deriving DecidableEq, Repr

/-! ## JavaScript string primitives -/

/-- The whitespace characters recognised by the JS `\s` class and `trim`
(restricted to the ASCII range, which covers every string the editor builds). -/
def jsWhitespace (c : Char) : Bool :=
  c = ' ' || c = '\t' || c = '\n' || c = '\r' || c = '\x0b' || c = '\x0c'

/-- JS `String.prototype.trim`. -/
def jsTrim (s : String) : String :=
  ⟨((s.data.dropWhile jsWhitespace).reverse.dropWhile jsWhitespace).reverse⟩

/-- JS `String.prototype.toUpperCase` on ASCII text. -/
def jsToUpper (s : String) : String := ⟨s.data.map Char.toUpper⟩

/-- JS `String.prototype.startsWith`. -/
def strStartsWith (s pat : String) : Bool := pat.data.isPrefixOf s.data

/-- JS `String.prototype.endsWith`. -/
def strEndsWith (s pat : String) : Bool := pat.data.reverse.isPrefixOf s.data.reverse

/-- Case-insensitive prefix test (`pat` is given in upper case): models an
anchored `/^pat/i` regex test. -/
def startsWithCI (s pat : String) : Bool := pat.data.isPrefixOf (s.data.map Char.toUpper)

/-! ## `src/constants/editorConstants.ts` -/

/-- Per-type base heights (`BLOCK_HEIGHTS`), in tenths of a line-unit; the JS
lookup `BLOCK_HEIGHTS[type] || 2` yields 2 line-units for unknown types. -/
def BLOCK_HEIGHTS (t : String) : Nat :=
  if t = "scene-heading" then 25
  else if t = "action" then 20
  else if t = "character" then 20
  else if t = "parenthetical" then 18
  else if t = "dialogue" then 20
  else if t = "transition" then 25
  else if t = "text" then 20
  else if t = "shot" then 25
  else 20

/-- `MAX_PAGE_HEIGHT = 55` line-units, in tenths. -/
def MAX_PAGE_HEIGHT : Nat := 550

/-- `BLOCK_TYPES`, the Tab cycling order. -/
def BLOCK_TYPES : List String :=
  ["scene-heading", "action", "character", "parenthetical", "dialogue",
   "transition", "text", "shot"]

/-! ## `src/utils/blockUtils.ts` -/

/-- `calculateBlockHeight`: base height times `Math.max(1, Math.ceil(len/75))`,
in tenths of a line-unit. -/
def calculateBlockHeight (b : Block) : Nat :=
  BLOCK_HEIGHTS b.type * max 1 ((b.content.length + 74) / 75)

/-- The mutable state of `organizeBlocksIntoPages`: finished pages, the page
being filled, and its accumulated height. -/
structure PageState where
  pages : List (List Block)
  page : List Block
  height : Nat
deriving DecidableEq, Repr

/-- Closing the current (non-empty) page. -/
def flushPage (st : PageState) : PageState := ⟨st.pages ++ [st.page], [], 0⟩

/-- The inner helper `addBlockToPage` of `organizeBlocksIntoPages`. -/
def addBlockToPage (st : PageState) (b : Block) : PageState :=
  let h := calculateBlockHeight b
  if st.height + h > MAX_PAGE_HEIGHT ∧ st.page ≠ [] then
    ⟨st.pages ++ [st.page], [b], h⟩
  else
    ⟨st.pages, st.page ++ [b], st.height + h⟩

/-- The main loop of `organizeBlocksIntoPages`; the first branch is the
character + dialogue/parenthetical keep-together rule. -/
def organizeGo : List Block → PageState → PageState
  | [], st => st
  | b :: rest, st =>
    match rest with
    | nb :: _ =>
      if b.type = "character" ∧ (nb.type = "dialogue" ∨ nb.type = "parenthetical") then
        let combined := calculateBlockHeight b + calculateBlockHeight nb
        let st1 := if st.height + combined > MAX_PAGE_HEIGHT ∧ st.page ≠ [] then flushPage st else st
        organizeGo rest (addBlockToPage st1 b)
      else
        organizeGo rest (addBlockToPage st b)
    | [] => organizeGo rest (addBlockToPage st b)

/-- `organizeBlocksIntoPages`. -/
def organizeBlocksIntoPages (blocks : List Block) : List (List Block) :=
  let st := organizeGo blocks ⟨[], [], 0⟩
  if st.page ≠ [] then st.pages ++ [st.page] else st.pages

/-- The total height of a list of blocks, in tenths of a line-unit. -/
def heightSum (l : List Block) : Nat := (l.map calculateBlockHeight).sum

/-- Every character block immediately followed by a dialogue or parenthetical
block fits together with it on one page. -/
@[reducible] def pairsFit (blocks : List Block) : Prop :=
  List.Chain' (fun a b => a.type = "character" →
    (b.type = "dialogue" ∨ b.type = "parenthetical") →
    calculateBlockHeight a + calculateBlockHeight b ≤ MAX_PAGE_HEIGHT) blocks

/-- The keep-together property of a page list: no page ends with a character
block while the next page starts with a dialogue or parenthetical block.
Together with order preservation (the pages flatten back to the input) this
says no character block is separated from its immediately following dialogue
or parenthetical block by a page break. -/
@[reducible] def keepTogetherOK (pages : List (List Block)) : Prop :=
  List.Chain' (fun p q => ¬ ((p.getLast?).map Block.type = some "character" ∧
    ((q.head?).map Block.type = some "dialogue" ∨
      (q.head?).map Block.type = some "parenthetical"))) pages

/-- Invariant of the pagination loop state: the height accumulator is the
height of the current page, finished pages are non-empty, a state with an
empty current page is the initial one, and the keep-together property holds
for the finished pages followed by the current page. -/
def PagInv (st : PageState) : Prop :=
  st.height = heightSum st.page ∧
  (∀ p ∈ st.pages, p ≠ []) ∧
  (st.page = [] → st.pages = []) ∧
  keepTogetherOK (st.pages ++ [st.page])

/-- Coupling between the loop state and the unprocessed blocks: when the next
block is a dialogue or parenthetical and the current page ends with a
character block (necessarily its partner), the pair analysis of the previous
step has left room for the next block on the current page. -/
def PagCoupling (st : PageState) (l : List Block) : Prop :=
  ∀ d, l.head? = some d → (d.type = "dialogue" ∨ d.type = "parenthetical") →
    (st.page.getLast?).map Block.type = some "character" →
    st.height + calculateBlockHeight d ≤ MAX_PAGE_HEIGHT

/-- Test of `/^(INT|EXT|INT\/EXT|I\/E)\.?\s/i`: one of the scene starters,
an optional dot, then a whitespace character. -/
def sceneHeadingStart (s : String) : Bool :=
  let u := s.data.map Char.toUpper
  ["INT", "EXT", "INT/EXT", "I/E"].any fun p =>
    p.data.isPrefixOf u &&
      (match u.drop p.length with
       | '.' :: c :: _ => jsWhitespace c
       | c :: _ => jsWhitespace c
       | [] => false)

/-- Test of `/TO:$/` (case-sensitive) `|| /^FADE (IN|OUT)|^DISSOLVE/i`. -/
def transitionPattern (s : String) : Bool :=
  strEndsWith s "TO:" || startsWithCI s "FADE IN" || startsWithCI s "FADE OUT" ||
    startsWithCI s "DISSOLVE"

/-- Test of `/^[A-Z][A-Z\s.()]*$/`: an upper-case letter followed by
upper-case letters, whitespace, dots or parentheses. -/
def characterPattern (s : String) : Bool :=
  match s.data with
  | [] => false
  | c :: rest =>
    ('A' ≤ c && c ≤ 'Z') &&
      rest.all fun d => ('A' ≤ d && d ≤ 'Z') || jsWhitespace d || d = '.' || d = '(' || d = ')'

/-- Test of `trimmed.startsWith('(') && trimmed.endsWith(')')`. -/
def parentheticalPattern (s : String) : Bool := strStartsWith s "(" && strEndsWith s ")"

/-- `detectFormat`. -/
def detectFormat (text : String) : Option String :=
  let trimmed := jsTrim text
  if sceneHeadingStart trimmed then some "scene-heading"
  else if transitionPattern trimmed then some "transition"
  else if characterPattern trimmed then some "character"
  else if parentheticalPattern trimmed then some "parenthetical"
  else none

/-- Test of `/^(INT\.|EXT\.|INT\.\/EXT\.|EXT\.\/INT\.|I\/E\.)$/i` on the
trimmed content: a bare scene starter the user is still typing. -/
def isBareSceneStarter (content : String) : Bool :=
  let u := (jsTrim content).data.map Char.toUpper
  ["INT.", "EXT.", "INT./EXT.", "EXT./INT.", "I/E."].any fun p => u = p.data

/-- `getNextBlockType`. -/
def getNextBlockType (currentType : String) (content : String) (isDoubleEnter : Bool) : String :=
  if currentType = "scene-heading" ∧ isBareSceneStarter content then "scene-heading"
  else if currentType = "scene-heading" then "action"
  else
    match detectFormat content with
    | some t => t
    | none =>
      if currentType = "action" then "character"
      else if currentType = "character" then "dialogue"
      else if currentType = "parenthetical" then "dialogue"
      else if currentType = "dialogue" then (if isDoubleEnter then "action" else "character")
      else if currentType = "transition" then "scene-heading"
      else "action"

/-- The single pass of `updateBlockNumbers`, carrying the two counters of the
JS closure. -/
def updateBlockNumbersGo : List Block → Nat → Nat → List Block
  | [], _, _ => []
  | b :: rest, sceneCount, dialogueCount =>
    if b.type = "scene-heading" then
      { b with number := some (sceneCount + 1) } :: updateBlockNumbersGo rest (sceneCount + 1) dialogueCount
    else if b.type = "dialogue" then
      { b with number := some (dialogueCount + 1) } :: updateBlockNumbersGo rest sceneCount (dialogueCount + 1)
    else
      { b with number := none } :: updateBlockNumbersGo rest sceneCount dialogueCount

/-- `updateBlockNumbers`. -/
def updateBlockNumbers (blocks : List Block) : List Block :=
  updateBlockNumbersGo blocks 0 0

/-! ## `src/hooks/useBlockHandlers.ts`

The handlers are embedded as pure functions on the block list.  DOM state
(caret ranges, focus, timers, history) does not influence the resulting block
sequence and is elided; the caret offset, the freshly generated block id
(`Date.now().toString()` in the source) and the double-Enter timing window
are passed in as parameters. -/

/-- JS `Array.prototype.findIndex`, as an optional index. -/
def jsFindIndex (p : Block → Bool) : List Block → Option Nat
  | [] => none
  | b :: rest => if p b then some 0 else (jsFindIndex p rest).map (· + 1)

/-- JS `Array.prototype.splice(n, 0, b)`: insert `b` at index `n`. -/
def listInsertAt (l : List Block) (n : Nat) (b : Block) : List Block :=
  l.take n ++ b :: l.drop n

/-- JS `textAfter.replace(/^\)/, '')`: strip one leading close-paren. -/
def dropLeadingParen (s : String) : String :=
  if strStartsWith s ")" then s.drop 1 else s

/-- `handleEnterKey`: split the active block at the caret.  `fastPress` is
true when this Enter follows the previous one within 500 ms. -/
def handleEnterKey (blocks : List Block) (blockId newId content : String)
    (caretPos : Nat) (fastPress : Bool) : List Block :=
  match jsFindIndex (fun b => b.id = blockId) blocks with
  | none => blocks
  | some currentIndex =>
    match blocks[currentIndex]? with
    | none => blocks
    | some currentBlock =>
      let textBefore := content.take caretPos
      let textAfter := content.drop caretPos
      let isDoubleEnter :=
        fastPress ∧ currentBlock.type = "dialogue" ∧ jsTrim textBefore = ""
      if currentBlock.type = "transition" then
        let updated :=
          if jsTrim textBefore ≠ "" then
            blocks.set currentIndex { currentBlock with content := jsToUpper (jsTrim textBefore) }
          else blocks
        listInsertAt updated (currentIndex + 1) ⟨newId, "scene-heading", "", none⟩
      else if isDoubleEnter then
        (blocks.filter fun b => b.id ≠ blockId) ++ [⟨newId, "action", textAfter, none⟩]
      else if currentBlock.type = "parenthetical" then
        let updated :=
          if ¬ strEndsWith textBefore ")" then
            blocks.set currentIndex { currentBlock with content := textBefore ++ ")" }
          else blocks
        listInsertAt updated (currentIndex + 1)
          ⟨newId, "dialogue", jsTrim (dropLeadingParen textAfter), none⟩
      else
        let newBlockType := getNextBlockType currentBlock.type textBefore false
        listInsertAt (blocks.set currentIndex { currentBlock with content := textBefore })
          (currentIndex + 1) ⟨newId, newBlockType, textAfter, none⟩

/-- JS `content.replace(/^\(|\)$/g, '')`: strip one leading open-paren and one
trailing close-paren. -/
def stripOuterParens (s : String) : String :=
  let d := if strStartsWith s "(" then s.drop 1 else s
  if strEndsWith d ")" then d.dropRight 1 else d

/-- `handleFormatChange`: retype the active block to `t`, applying the
content transforms, then renumber.  Note that no scene-heading block is
inserted when `t` is `"transition"`. -/
def handleFormatChange (blocks : List Block) (activeBlock : Option String)
    (t : String) : List Block :=
  match activeBlock with
  | none => blocks
  | some aid =>
    match blocks.find? (fun b => b.id = aid) with
    | none => blocks
    | some currentBlock =>
      let nc1 :=
        if t = "parenthetical" then
          let c := jsTrim currentBlock.content
          if c = "" ∨ c = "()" then "()"
          else if ¬ strStartsWith c "(" ∨ ¬ strEndsWith c ")" then
            "(" ++ stripOuterParens c ++ ")"
          else currentBlock.content
        else if currentBlock.type = "parenthetical" ∧ t ≠ "parenthetical" then
          jsTrim (stripOuterParens currentBlock.content)
        else currentBlock.content
      let nc2 := if t = "character" ∧ currentBlock.type ≠ "character" then jsToUpper nc1 else nc1
      let nc3 :=
        if t = "scene-heading" ∧ ¬ sceneHeadingStart nc2 then
          (if jsTrim nc2 = "" then "" else nc2)
        else nc2
      let nc4 :=
        if t = "transition" ∧ ¬ transitionPattern nc3 then
          (if jsTrim nc3 = "" then ""
           else if ¬ strEndsWith nc3 "TO:" then jsToUpper nc3
           else nc3)
        else nc3
      updateBlockNumbers
        (blocks.map fun b => if b.id = aid then { b with type := t, content := nc4 } else b)

/-- The `isTransitionContent` helper of `handleContentChange`. -/
def isTransitionContent (content : String) : Bool :=
  let trimmedUpper := jsToUpper (jsTrim content)
  strEndsWith trimmedUpper "TO:" || strStartsWith trimmedUpper "FADE IN" ||
    strStartsWith trimmedUpper "FADE OUT" || strStartsWith trimmedUpper "DISSOLVE"

/-- The parenthetical auto-wrap of `handleContentChange`. -/
def wrapParens (s : String) : String :=
  let c := jsTrim s
  let c := if ¬ strStartsWith c "(" then "(" ++ c else c
  if ¬ strEndsWith c ")" then c ++ ")" else c

/-- The per-block update function of `handleContentChange` (the lambda passed
to `updatedBlocks.map` in the source): auto-wrap parentheticals, convert a
block whose new content matches the transition pattern, otherwise retype by
`detectFormat` and store the literal new content. -/
def contentChangeUpdate (id newContent : String) (b : Block) : Block :=
  if b.id ≠ id then b
  else if b.type = "parenthetical" then { b with content := wrapParens newContent }
  else if isTransitionContent newContent ∧ b.type ≠ "transition" then
    { b with type := "transition", content := jsToUpper (jsTrim newContent) }
  else { b with content := newContent, type := (detectFormat newContent).getD b.type }

/-- `handleContentChange`: replace the content of block `id` with
`newContent` (deleting the block when the new content trims to empty),
auto-retyping by `detectFormat`, and inserting a fresh scene-heading block
(with id `newId`) right after a block that just became a transition. -/
def handleContentChange (blocks : List Block) (id newId newContent : String)
    (forcedType : Option String) : List Block :=
  match jsFindIndex (fun b => b.id = id) blocks with
  | none => blocks
  | some currentBlockIndex =>
    match blocks[currentBlockIndex]? with
    | none => blocks
    | some currentBlock =>
      if jsTrim newContent = "" then blocks.eraseIdx currentBlockIndex
      else
        match forcedType with
        | some ft =>
          let updatedBlocks :=
            blocks.map fun b => if b.id = id then { b with type := ft, content := newContent } else b
          if ft = "transition" then
            listInsertAt updatedBlocks (currentBlockIndex + 1) ⟨newId, "scene-heading", "", none⟩
          else updatedBlocks
        | none =>
          let updatedBlocks := blocks.map (contentChangeUpdate id newContent)
          let wasTransitionCreated : Bool :=
            match updatedBlocks[currentBlockIndex]? with
            | some u => u.type = "transition" && currentBlock.type ≠ "transition"
            | none => false
          if wasTransitionCreated then
            listInsertAt updatedBlocks (currentBlockIndex + 1) ⟨newId, "scene-heading", "", none⟩
          else updatedBlocks

/-- The Tab branch of `handleKeyDown`: cycle the block type forward through
`BLOCK_TYPES` and apply the format change. -/
def handleTab (blocks : List Block) (blockId : String) : List Block :=
  match blocks.find? (fun b => b.id = blockId) with
  | none => blocks
  | some currentBlock =>
    let nextIndex :=
      match BLOCK_TYPES.findIdx? (· = currentBlock.type) with
      | some i => (i + 1) % BLOCK_TYPES.length
      | none => 0
    handleFormatChange blocks (some blockId) (BLOCK_TYPES.getD nextIndex "action")

/-- The Backspace branch of `handleKeyDown`: on an empty block with a
predecessor, delete the block (the predecessor keeps its content). -/
def handleBackspaceOnEmpty (blocks : List Block) (blockId : String) : List Block :=
  match jsFindIndex (fun b => b.id = blockId) blocks with
  | none => blocks
  | some currentIndex =>
    if currentIndex > 0 then blocks.filter (fun b => b.id ≠ blockId) else blocks

/-- The invariant claimed in the specification: every transition-typed block
is immediately followed by a scene-heading block. -/
def transitionsTerminated (blocks : List Block) : Prop :=
  ∀ i, (blocks[i]?).map Block.type = some "transition" →
    (blocks[i + 1]?).map Block.type = some "scene-heading"

/-! ## `src/lib/screenplay/saveManager.ts` -/

/-- `SCENE_SIZE_LIMIT = 500 * 1024`. -/
def SCENE_SIZE_LIMIT : Nat := 500 * 1024

/-- `new Blob([s]).size`: the UTF-8 byte size of a string. -/
def jsSize (s : String) : Nat := s.utf8ByteSize

/-- The sentence-final characters of the split regex `/(?<=[.!?])\s+/`. -/
def sentenceEnder (c : Char) : Bool := c = '.' || c = '!' || c = '?'

/-- Scanner state for the sentence split: `plain` while inside a sentence,
`afterEnd` when the last character was `.`, `!` or `?`, and `inWS` while
consuming a whitespace separator run (with the finished sentence in `acc`). -/
inductive SplitMode where
  | plain
  | afterEnd
  | inWS

/-- `action.split(/(?<=[.!?])\s+/)`: a cut happens at each maximal whitespace
run immediately preceded by `.`, `!` or `?`; the run is consumed and a
trailing run leaves a trailing empty piece, as with the JS regex split. -/
def splitSentencesGo (acc : List Char) (mode : SplitMode) : List Char → List (List Char)
  | [] =>
    match mode with
    | .inWS => [acc, []]
    | _ => [acc]
  | c :: rest =>
    match mode with
    | .plain =>
      if sentenceEnder c then splitSentencesGo (acc ++ [c]) .afterEnd rest
      else splitSentencesGo (acc ++ [c]) .plain rest
    | .afterEnd =>
      if jsWhitespace c then splitSentencesGo acc .inWS rest
      else if sentenceEnder c then splitSentencesGo (acc ++ [c]) .afterEnd rest
      else splitSentencesGo (acc ++ [c]) .plain rest
    | .inWS =>
      if jsWhitespace c then splitSentencesGo acc .inWS rest
      else if sentenceEnder c then acc :: splitSentencesGo [c] .afterEnd rest
      else acc :: splitSentencesGo [c] .plain rest

/-- The sentence list of an action string. -/
def splitSentences (s : String) : List String :=
  (splitSentencesGo [] .plain s.data).map String.mk

/-- The packing loop of `splitActionIntoChunks`: `cur` is `currentChunk`.
When `cur` together with the next sentence would exceed the limit, `cur` is
emitted as a chunk (even when empty) and the sentence starts a new chunk;
otherwise the sentence is appended after a single joining space. -/
def chunksGo : List String → String → List String
  | [], cur => if cur ≠ "" then [cur] else []
  | s :: rest, cur =>
    if (cur ++ s).length > SCENE_SIZE_LIMIT then cur :: chunksGo rest s
    else chunksGo rest (if cur = "" then s else cur ++ " " ++ s)

/-- `splitActionIntoChunks`. -/
def splitActionIntoChunks (action : String) : List String :=
  chunksGo (splitSentences action) ""

/-- A dialogue triple of the scene-content record
(`src/types/screenplay.ts`). -/
structure Dialogue where
  characterName : String
  text : String
  parenthetical : Option String := none
deriving DecidableEq, Repr

/-- The scene-content record written by `saveScene`: either the joined action
text or, above the size limit, its chunk list, plus the dialogue triples. -/
structure SceneContentRec where
  action : Option String := none
  actionChunks : Option (List String) := none
  dialogues : List Dialogue := []
deriving DecidableEq, Repr

/-- JS `currentParenthetical || undefined`: an empty parenthetical is dropped. -/
def orUndefined : Option String → Option String
  | some s => if s = "" then none else some s
  | none => none

/-- The dialogue-assembly loop of `saveScene`: a character block sets the
current speaker and clears the pending parenthetical, a parenthetical block
sets the pending parenthetical, and a dialogue block with a (truthy) current
speaker closes a triple. -/
def dialoguesGo : List Block → Option String → Option String → List Dialogue
  | [], _, _ => []
  | b :: rest, curChar, curPar =>
    if b.type = "character" then dialoguesGo rest (some b.content) none
    else if b.type = "parenthetical" then dialoguesGo rest curChar (some b.content)
    else if b.type = "dialogue" then
      match curChar with
      | some c =>
        if c = "" then dialoguesGo rest curChar curPar
        else ⟨c, b.content, orUndefined curPar⟩ :: dialoguesGo rest curChar none
      | none => dialoguesGo rest curChar curPar
    else dialoguesGo rest curChar curPar

/-- The scene decomposition of `saveScene` (lines 210-250): the heading text
of the first scene-heading block, the action blocks joined with newlines
(chunked above the size limit) and the dialogue triples. -/
def decomposeScene (blocks : List Block) : String × SceneContentRec :=
  let sceneHeading :=
    match blocks.find? (fun b => b.type = "scene-heading") with
    | some b => b.content
    | none => ""
  let actionBlocks := blocks.filter fun b => b.type = "action"
  let dialogueBlocks := blocks.filter fun b =>
    b.type = "character" ∨ b.type = "dialogue" ∨ b.type = "parenthetical"
  let action := String.intercalate "\n" (actionBlocks.map Block.content)
  let dialogues := dialoguesGo dialogueBlocks none none
  if jsSize action > SCENE_SIZE_LIMIT then
    (sceneHeading, { actionChunks := some (splitActionIntoChunks action), dialogues })
  else
    (sceneHeading, { action := some action, dialogues })

/-- The dialogue part of the block reconstruction in the project loader
(`reconstructBlocksFromScenes`): each triple becomes a character block, an
optional parenthetical block, and a dialogue block. -/
def reconstructDialogues (sceneId : String) : List Dialogue → Nat → List Block
  | [], _ => []
  | d :: rest, i =>
    ⟨sceneId ++ "-character-" ++ toString i, "character",
      (if d.characterName = "" then "CHARACTER" else d.characterName), none⟩ ::
    ((match d.parenthetical with
      | some p =>
        if p = "" then []
        else [⟨sceneId ++ "-parenthetical-" ++ toString i, "parenthetical", p, none⟩]
      | none => []) ++
     ⟨sceneId ++ "-dialogue-" ++ toString i, "dialogue", d.text, some (i + 1)⟩ ::
     reconstructDialogues sceneId rest (i + 1))

/-- One scene of `reconstructBlocksFromScenes`: the scene-heading block
(with a placeholder for an empty heading), the single action block when the
record's `action` field is truthy (chunked action is not handled by the
loader), then the dialogue blocks. -/
def reconstructScene (sceneId sceneHeading : String) (content : Option SceneContentRec) :
    List Block :=
  ⟨sceneId ++ "-heading", "scene-heading",
    (if sceneHeading = "" then "INT. LOCATION - DAY" else sceneHeading), some 1⟩ ::
  match content with
  | none => []
  | some c =>
    (match c.action with
     | some a => if a = "" then [] else [⟨sceneId ++ "-action", "action", a, none⟩]
     | none => []) ++
    reconstructDialogues sceneId c.dialogues 0

/-- The type/content projection of a block: the claimed round-trip equality
ignores ids and numbers. -/
def blockSig (b : Block) : String × String := (b.type, b.content)

/-- A dialogue group: a character block, an optional parenthetical block, and
a dialogue block. -/
structure DlgGroup where
  char : String
  par : Option String := none
  dlg : String
deriving DecidableEq, Repr

/-- The canonical block sequence of a dialogue group (block ids are
irrelevant to decomposition and to the type/content projection). -/
def groupBlocks (g : DlgGroup) : List Block :=
  ⟨"", "character", g.char, none⟩ ::
  ((match g.par with
    | some p => [⟨"", "parenthetical", p, none⟩]
    | none => []) ++ [⟨"", "dialogue", g.dlg, none⟩])

/-- A canonical single-scene block sequence: a scene heading, at most one
action block, and a list of dialogue groups. -/
def mkScene (h : String) (a : Option String) (gs : List DlgGroup) : List Block :=
  ⟨"", "scene-heading", h, none⟩ ::
  ((match a with
    | some s => [⟨"", "action", s, none⟩]
    | none => []) ++ (gs.map groupBlocks).flatten)

/-- A scene lock record (`scene_locks/{sceneId}`). -/
structure SceneLockRec where
  userId : String
  expiresMillis : Int
deriving DecidableEq, Repr

/-- The scene metadata fields read by `checkConflicts`. -/
structure SceneRec where
  modifiedBy : String
  lastModifiedMillis : Int
deriving DecidableEq, Repr

/-- The remote documents `saveScene` reads. -/
structure Store where
  lock : Option SceneLockRec
  scene : Option SceneRec
  screenplayExists : Bool
deriving DecidableEq, Repr

/-- A remote write issued by `saveScene` (a `batch.set`, `batch.update` or
`deleteDoc` against Firestore). -/
inductive WriteOp where
  | setLock (sceneId userId : String)
  | setScene (sceneId sceneHeading : String)
  | setContent (sceneId : String) (rec : SceneContentRec)
  | updateScreenplayMeta
  | createScreenplay
  | addHistory (sceneId : String)
  | deleteLock (sceneId : String)
deriving DecidableEq, Repr

/-- A conflict entry of a `SaveResult` (the source fills in a placeholder
email and the current timestamp). -/
structure ConflictInfo where
  sceneId : String
  userEmail : String
deriving DecidableEq, Repr

/-- `SaveResult`. -/
structure SaveResult where
  success : Bool
  error : Option String := none
  conflicts : List ConflictInfo := []
deriving DecidableEq, Repr

/-- `saveScene`, as a function of the documents it reads, returning the
`SaveResult` together with the list of remote writes it issues, in order.
The version-conflict check (`checkConflicts`) runs first; then the lease
check of `acquireLock`; the `finally` block always runs `releaseLock`, whose
`deleteDoc` is the trailing `WriteOp.deleteLock` on every path. -/
def saveScene (store : Store) (userId sceneId : String) (blocks : List Block)
    (ignoreConflicts : Bool) (now : Int) : SaveResult × List WriteOp :=
  let versionConflict : Bool :=
    match store.scene with
    | some s => decide (s.modifiedBy ≠ userId) && decide (s.lastModifiedMillis > now - 5000)
    | none => false
  if !ignoreConflicts && versionConflict then
    ({ success := false, error := some "Scene has been modified by another user",
       conflicts := [⟨sceneId, "another-user@example.com"⟩] },
     [WriteOp.deleteLock sceneId])
  else
    let lockHeldByOther : Bool :=
      match store.lock with
      | some l => decide (l.userId ≠ userId) && decide (l.expiresMillis > now)
      | none => false
    if lockHeldByOther then
      ({ success := false, error := some "Scene is being edited by another user",
         conflicts := [⟨sceneId, "another-user@example.com"⟩] },
       [WriteOp.deleteLock sceneId])
    else
      let dec := decomposeScene blocks
      ({ success := true },
       [WriteOp.setLock sceneId userId, WriteOp.setScene sceneId dec.1,
        WriteOp.setContent sceneId dec.2,
        (if store.screenplayExists then WriteOp.updateScreenplayMeta
         else WriteOp.createScreenplay),
        WriteOp.addHistory sceneId, WriteOp.deleteLock sceneId])

/-! ## Fixtures used by counterexamples and witnesses -/

/-- The store state of a scene whose lock is held, unexpired, by another
user: the lease of `"other-user"` expires 300 seconds after `now = 10^9`. -/
def c1Store : Store :=
  { lock := some ⟨"other-user", 1000300000⟩, scene := none, screenplayExists := true }

/-- A single action block whose content matches no transition pattern. -/
def c2Blocks : List Block := [⟨"b1", "action", "cut", none⟩]

/-- A scene whose dialogue precedes its action block. -/
def c3Blocks : List Block :=
  [⟨"1", "scene-heading", "INT. A - DAY", none⟩, ⟨"2", "character", "BOB", none⟩,
   ⟨"3", "dialogue", "Hi.", none⟩, ⟨"4", "action", "He waves.", none⟩]

/-- A character block of height 2 line-units. -/
def c4char : Block := ⟨"c", "character", "BOB", none⟩

/-- A dialogue block of 1951 characters: 27 lines, height 54 line-units. -/
def c4dlg : Block := ⟨"d", "dialogue", String.mk (List.replicate 1951 'a'), none⟩

/-- A character block followed by a dialogue block whose combined height,
56 line-units, exceeds the page budget of 55. -/
def c4Blocks : List Block := [c4char, c4dlg]

/-- An action text of 512001 bytes with no sentence boundary. -/
def bigAction : String := String.mk (List.replicate 512001 'a')

end Screenplay

namespace Screenplay

/-! ## Supporting lemmas -/

theorem updateBlockNumbersGo_getElem (l : List Block) (sc dc i : Nat) (b : Block)
    (h : l[i]? = some b) :
    (updateBlockNumbersGo l sc dc)[i]? = some (
      if b.type = "scene-heading" then
        { b with number := some (sc + (l.take (i + 1)).countP (fun x => x.type = "scene-heading")) }
      else if b.type = "dialogue" then
        { b with number := some (dc + (l.take (i + 1)).countP (fun x => x.type = "dialogue")) }
      else { b with number := none }) := by
  induction l generalizing sc dc i with
  | nil => simp at h
  | cons hd tl ih =>
    cases i with
    | zero =>
      obtain rfl : hd = b := by simpa using h
      by_cases h1 : hd.type = "scene-heading"
      · simp [updateBlockNumbersGo, h1]
      · by_cases h2 : hd.type = "dialogue"
        · simp [updateBlockNumbersGo, h1, h2]
        · simp [updateBlockNumbersGo, h1, h2]
    | succ i =>
      have h' : tl[i]? = some b := by simpa using h
      by_cases h1 : hd.type = "scene-heading"
      · have estep : updateBlockNumbersGo (hd :: tl) sc dc =
            { hd with number := some (sc + 1) } :: updateBlockNumbersGo tl (sc + 1) dc := by
          simp [updateBlockNumbersGo, h1]
        rw [estep, List.getElem?_cons_succ, ih (sc + 1) dc i h']
        simp only [List.take_succ_cons, List.countP_cons, h1]
        by_cases hb1 : b.type = "scene-heading" <;> by_cases hb2 : b.type = "dialogue" <;>
          simp [hb1, hb2, Nat.add_assoc, Nat.add_comm, Nat.add_left_comm]
      · by_cases h2 : hd.type = "dialogue"
        · have estep : updateBlockNumbersGo (hd :: tl) sc dc =
              { hd with number := some (dc + 1) } :: updateBlockNumbersGo tl sc (dc + 1) := by
            simp [updateBlockNumbersGo, h1, h2]
          rw [estep, List.getElem?_cons_succ, ih sc (dc + 1) i h']
          simp only [List.take_succ_cons, List.countP_cons, h1, h2]
          by_cases hb1 : b.type = "scene-heading" <;> by_cases hb2 : b.type = "dialogue" <;>
            simp [hb1, hb2, h1, h2, Nat.add_assoc, Nat.add_comm, Nat.add_left_comm]
        · have estep : updateBlockNumbersGo (hd :: tl) sc dc =
              { hd with number := none } :: updateBlockNumbersGo tl sc dc := by
            simp [updateBlockNumbersGo, h1, h2]
          rw [estep, List.getElem?_cons_succ, ih sc dc i h']
          simp only [List.take_succ_cons, List.countP_cons, h1, h2]
          by_cases hb1 : b.type = "scene-heading" <;> by_cases hb2 : b.type = "dialogue" <;>
            simp [hb1, hb2, h1, h2, Nat.add_assoc, Nat.add_comm, Nat.add_left_comm]

theorem updateBlockNumbersGo_idem (l : List Block) (sc dc : Nat) :
    updateBlockNumbersGo (updateBlockNumbersGo l sc dc) sc dc = updateBlockNumbersGo l sc dc := by
  induction l generalizing sc dc with
  | nil => rfl
  | cons hd tl ih =>
    by_cases h1 : hd.type = "scene-heading"
    · simp [updateBlockNumbersGo, h1, ih]
    · by_cases h2 : hd.type = "dialogue"
      · simp [updateBlockNumbersGo, h1, h2, ih]
      · simp [updateBlockNumbersGo, h1, h2, ih]

theorem updateBlockNumbersGo_length (l : List Block) (sc dc : Nat) :
    (updateBlockNumbersGo l sc dc).length = l.length := by
  induction l generalizing sc dc with
  | nil => rfl
  | cons hd tl ih =>
    by_cases h1 : hd.type = "scene-heading"
    · simp [updateBlockNumbersGo, h1, ih]
    · by_cases h2 : hd.type = "dialogue"
      · simp [updateBlockNumbersGo, h1, h2, ih]
      · simp [updateBlockNumbersGo, h1, h2, ih]

theorem updateBlockNumbersGo_frame (l : List Block) (sc dc : Nat) (i : Nat) :
    ((updateBlockNumbersGo l sc dc)[i]?).map (fun b => (b.id, b.type, b.content)) =
      (l[i]?).map (fun b => (b.id, b.type, b.content)) := by
  induction l generalizing sc dc i with
  | nil => rfl
  | cons hd tl ih =>
    cases i with
    | zero =>
      by_cases h1 : hd.type = "scene-heading"
      · simp [updateBlockNumbersGo, h1]
      · by_cases h2 : hd.type = "dialogue"
        · simp [updateBlockNumbersGo, h1, h2]
        · simp [updateBlockNumbersGo, h1, h2]
    | succ i =>
      by_cases h1 : hd.type = "scene-heading"
      · simpa [updateBlockNumbersGo, h1] using ih (sc + 1) dc i
      · by_cases h2 : hd.type = "dialogue"
        · simpa [updateBlockNumbersGo, h1, h2] using ih sc (dc + 1) i
        · simpa [updateBlockNumbersGo, h1, h2] using ih sc dc i

/-! ## Claim theorems -/

/-- C5: `detectFormat` evaluates its four patterns in fixed priority order
(scene heading, then transition, then character, then parenthetical, else
`none`), and classifies the concrete example strings as the specification
lists them. -/
theorem detectFormat_priority_spec :
    (∀ s, sceneHeadingStart (jsTrim s) = true → detectFormat s = some "scene-heading") ∧
    (∀ s, sceneHeadingStart (jsTrim s) = false → transitionPattern (jsTrim s) = true →
      detectFormat s = some "transition") ∧
    (∀ s, sceneHeadingStart (jsTrim s) = false → transitionPattern (jsTrim s) = false →
      characterPattern (jsTrim s) = true → detectFormat s = some "character") ∧
    (∀ s, sceneHeadingStart (jsTrim s) = false → transitionPattern (jsTrim s) = false →
      characterPattern (jsTrim s) = false → parentheticalPattern (jsTrim s) = true →
      detectFormat s = some "parenthetical") ∧
    (∀ s, sceneHeadingStart (jsTrim s) = false → transitionPattern (jsTrim s) = false →
      characterPattern (jsTrim s) = false → parentheticalPattern (jsTrim s) = false →
      detectFormat s = none) ∧
    detectFormat "INT. HOUSE - DAY" = some "scene-heading" ∧
    detectFormat "EXT HOUSE" = some "scene-heading" ∧
    detectFormat "CUT TO:" = some "transition" ∧
    detectFormat "FADE IN" = some "transition" ∧
    detectFormat "SARAH" = some "character" ∧
    detectFormat "(smiling)" = some "parenthetical" ∧
    detectFormat "He walks in." = none := by
  refine ⟨?_, ?_, ?_, ?_, ?_, by decide, by decide, by decide, by decide, by decide,
    by decide, by decide⟩
  · intro s h1; simp [detectFormat, h1]
  · intro s h1 h2; simp [detectFormat, h1, h2]
  · intro s h1 h2 h3; simp [detectFormat, h1, h2, h3]
  · intro s h1 h2 h3 h4; simp [detectFormat, h1, h2, h3, h4]
  · intro s h1 h2 h3 h4; simp [detectFormat, h1, h2, h3, h4]

/-- Witness for C5: the transition rule applied at the concrete input
`"CUT TO:"`, whose trimmed form fails the scene-heading test and passes the
transition test. -/
theorem detectFormat_priority_spec_witness :
    sceneHeadingStart (jsTrim "CUT TO:") = false ∧ transitionPattern (jsTrim "CUT TO:") = true ∧
      detectFormat "CUT TO:" = some "transition" :=
  ⟨by decide, by decide,
    detectFormat_priority_spec.2.1 "CUT TO:" (by decide) (by decide)⟩

/-- C7: `getNextBlockType` keeps a scene heading while its content is a bare
starter, moves a fuller scene heading to action, otherwise defers to
`detectFormat`, and otherwise follows the fixed successor table; in
particular the two concrete scene-heading examples hold. -/
theorem getNextBlockType_spec :
    (∀ text d, isBareSceneStarter text = true →
      getNextBlockType "scene-heading" text d = "scene-heading") ∧
    (∀ text d, isBareSceneStarter text = false →
      getNextBlockType "scene-heading" text d = "action") ∧
    (∀ currentType text d t, currentType ≠ "scene-heading" → detectFormat text = some t →
      getNextBlockType currentType text d = t) ∧
    (∀ text d, detectFormat text = none → getNextBlockType "action" text d = "character") ∧
    (∀ text d, detectFormat text = none → getNextBlockType "character" text d = "dialogue") ∧
    (∀ text d, detectFormat text = none → getNextBlockType "parenthetical" text d = "dialogue") ∧
    (∀ text, detectFormat text = none → getNextBlockType "dialogue" text true = "action") ∧
    (∀ text, detectFormat text = none → getNextBlockType "dialogue" text false = "character") ∧
    (∀ text d, detectFormat text = none → getNextBlockType "transition" text d = "scene-heading") ∧
    (∀ currentType text d, currentType ≠ "scene-heading" → currentType ≠ "action" →
      currentType ≠ "character" → currentType ≠ "parenthetical" → currentType ≠ "dialogue" →
      currentType ≠ "transition" → detectFormat text = none →
      getNextBlockType currentType text d = "action") ∧
    getNextBlockType "scene-heading" "INT." false = "scene-heading" ∧
    getNextBlockType "scene-heading" "INT. HOUSE" false = "action" := by
  refine ⟨?_, ?_, ?_, ?_, ?_, ?_, ?_, ?_, ?_, ?_, by decide, by decide⟩
  · intro text d h; simp [getNextBlockType, h]
  · intro text d h; simp [getNextBlockType, h]
  · intro ct text d t hct h; simp [getNextBlockType, hct, h]
  · intro text d h; simp [getNextBlockType, h]
  · intro text d h; simp [getNextBlockType, h]
  · intro text d h; simp [getNextBlockType, h]
  · intro text h; simp [getNextBlockType, h]
  · intro text h; simp [getNextBlockType, h]
  · intro text d h; simp [getNextBlockType, h]
  · intro ct text d h1 h2 h3 h4 h5 h6 h; simp [getNextBlockType, h1, h2, h3, h4, h5, h6, h]

/-- Witness for C7: the `detectFormat` override applied concretely, with the
current type action and preceding text `"SARAH"`. -/
theorem getNextBlockType_spec_witness :
    detectFormat "SARAH" = some "character" ∧
      getNextBlockType "action" "SARAH" false = "character" :=
  ⟨by decide, getNextBlockType_spec.2.2.1 "action" "SARAH" false "character"
    (by decide) (by decide)⟩

/-- C8: `calculateBlockHeight` is the per-type base height times the line
count `⌈len/75⌉`, clamped below by one line.  Heights are in tenths of a
line-unit, so 25, 20 and 18 denote the specified 2.5, 2.0 and 1.8. -/
theorem calculateBlockHeight_spec :
    ∀ b : Block,
      (b.type = "scene-heading" → calculateBlockHeight b = 25 * max 1 (b.content.length ⌈/⌉ 75)) ∧
      (b.type = "action" → calculateBlockHeight b = 20 * max 1 (b.content.length ⌈/⌉ 75)) ∧
      (b.type = "character" → calculateBlockHeight b = 20 * max 1 (b.content.length ⌈/⌉ 75)) ∧
      (b.type = "parenthetical" → calculateBlockHeight b = 18 * max 1 (b.content.length ⌈/⌉ 75)) ∧
      (b.type = "dialogue" → calculateBlockHeight b = 20 * max 1 (b.content.length ⌈/⌉ 75)) ∧
      (b.type = "transition" → calculateBlockHeight b = 25 * max 1 (b.content.length ⌈/⌉ 75)) ∧
      (b.type = "text" → calculateBlockHeight b = 20 * max 1 (b.content.length ⌈/⌉ 75)) ∧
      (b.type = "shot" → calculateBlockHeight b = 25 * max 1 (b.content.length ⌈/⌉ 75)) := by
  intro b
  have hceil : b.content.length ⌈/⌉ 75 = (b.content.length + 74) / 75 :=
    Nat.ceilDiv_eq_add_pred_div _ _
  refine ⟨?_, ?_, ?_, ?_, ?_, ?_, ?_, ?_⟩ <;>
    (intro h; simp [calculateBlockHeight, BLOCK_HEIGHTS, h, hceil])

/-- Witness for C8: a dialogue block of 80 characters spans two lines, hence
4 line-units (40 tenths). -/
theorem calculateBlockHeight_spec_witness :
    (⟨"w", "dialogue", String.mk (List.replicate 80 'a'), none⟩ : Block).type = "dialogue" ∧
      calculateBlockHeight ⟨"w", "dialogue", String.mk (List.replicate 80 'a'), none⟩ = 40 :=
  ⟨rfl, by
    have := (calculateBlockHeight_spec
      ⟨"w", "dialogue", String.mk (List.replicate 80 'a'), none⟩).2.2.2.2.1 rfl
    simpa using this⟩

/-- C6: `updateBlockNumbers` gives the i-th block the count of scene headings
(resp. dialogues) among the first i+1 blocks as its number when it is a scene
heading (resp. dialogue) — the two independent counters 1,2,3,... in document
order — clears the number of every other block, and is idempotent. -/
theorem updateBlockNumbers_numbering_and_idempotent :
    (∀ (blocks : List Block) (i : Nat) (b : Block), blocks[i]? = some b →
      (b.type = "scene-heading" → (updateBlockNumbers blocks)[i]? =
        some { b with number := some ((blocks.take (i + 1)).countP
          (fun x => x.type = "scene-heading")) }) ∧
      (b.type = "dialogue" → (updateBlockNumbers blocks)[i]? =
        some { b with number := some ((blocks.take (i + 1)).countP
          (fun x => x.type = "dialogue")) }) ∧
      (b.type ≠ "scene-heading" → b.type ≠ "dialogue" →
        (updateBlockNumbers blocks)[i]? = some { b with number := none })) ∧
    (∀ blocks : List Block,
      updateBlockNumbers (updateBlockNumbers blocks) = updateBlockNumbers blocks) := by
  constructor
  · intro blocks i b h
    have key := updateBlockNumbersGo_getElem blocks 0 0 i b h
    refine ⟨fun h1 => ?_, fun h2 => ?_, fun h1 h2 => ?_⟩
    · rw [updateBlockNumbers, key]; simp [h1]
    · have h1 : b.type ≠ "scene-heading" := by rw [h2]; decide
      rw [updateBlockNumbers, key]; simp [h1, h2]
    · rw [updateBlockNumbers, key]; simp [h1, h2]
  · intro blocks
    exact updateBlockNumbersGo_idem blocks 0 0

/-- Witness for C6: in a two-block document the second scene heading receives
number 2. -/
theorem updateBlockNumbers_numbering_witness :
    ([⟨"1", "scene-heading", "A", none⟩, ⟨"2", "scene-heading", "B", none⟩] :
        List Block)[1]? = some ⟨"2", "scene-heading", "B", none⟩ ∧
      (updateBlockNumbers
        [⟨"1", "scene-heading", "A", none⟩, ⟨"2", "scene-heading", "B", none⟩])[1]? =
        some ⟨"2", "scene-heading", "B", some 2⟩ := by
  refine ⟨by decide, ?_⟩
  have := (updateBlockNumbers_numbering_and_idempotent.1
    [⟨"1", "scene-heading", "A", none⟩, ⟨"2", "scene-heading", "B", none⟩] 1
    ⟨"2", "scene-heading", "B", none⟩ (by decide)).1 rfl
  simpa using this

/-- C10: `updateBlockNumbers` changes only the `number` field: the output has
the same length, and positionwise the same id, type and content. -/
theorem updateBlockNumbers_frame :
    ∀ blocks : List Block,
      (updateBlockNumbers blocks).length = blocks.length ∧
      ∀ i : Nat, ((updateBlockNumbers blocks)[i]?).map (fun b => (b.id, b.type, b.content)) =
        (blocks[i]?).map (fun b => (b.id, b.type, b.content)) :=
  fun blocks => ⟨updateBlockNumbersGo_length blocks 0 0,
    fun i => updateBlockNumbersGo_frame blocks 0 0 i⟩

theorem utf8ByteSizeGo_ge_length (l : List Char) : l.length ≤ String.utf8ByteSize.go l := by
  induction l with
  | nil => simp [String.utf8ByteSize.go]
  | cons c cs ih =>
    have := Char.utf8Size_pos c
    simp only [String.utf8ByteSize.go, List.length_cons]
    omega

theorem jsSize_ge_length (s : String) : s.length ≤ jsSize s :=
  utf8ByteSizeGo_ge_length s.data

theorem splitSentencesGo_no_enders (l : List Char) (acc : List Char)
    (h : ∀ c ∈ l, sentenceEnder c = false) :
    splitSentencesGo acc .plain l = [acc ++ l] := by
  induction l generalizing acc with
  | nil => simp [splitSentencesGo]
  | cons c rest ih =>
    have hc : sentenceEnder c = false := h c (List.mem_cons_self c rest)
    have hrest : ∀ d ∈ rest, sentenceEnder d = false := fun d hd => h d (List.mem_cons_of_mem c hd)
    simp [splitSentencesGo, hc, ih (acc ++ [c]) hrest]

theorem bigAction_length : bigAction.length = 512001 := by
  show (String.mk (List.replicate 512001 'a')).length = 512001
  rw [String.length_mk, List.length_replicate]

theorem bigAction_ne_empty : bigAction ≠ "" := by
  intro h
  have := bigAction_length
  rw [h] at this
  simp at this

theorem splitSentences_bigAction : splitSentences bigAction = [bigAction] := by
  have h : ∀ c ∈ bigAction.data, sentenceEnder c = false := by
    intro c hc
    have : c = 'a' := List.eq_of_mem_replicate hc
    rw [this]
    decide
  rw [splitSentences, splitSentencesGo_no_enders _ [] h]
  rfl

theorem splitActionIntoChunks_bigAction : splitActionIntoChunks bigAction = ["", bigAction] := by
  rw [splitActionIntoChunks, splitSentences_bigAction]
  have h1 : ("" ++ bigAction).length > SCENE_SIZE_LIMIT := by
    rw [String.length_append, bigAction_length]
    have hempty : ("" : String).length = 0 := rfl
    rw [hempty]
    simp only [SCENE_SIZE_LIMIT]
    omega
  rw [chunksGo, if_pos h1, chunksGo, if_pos bigAction_ne_empty]

/-- C9 counterexample: the action text of 512001 bytes with no sentence
boundary exceeds the 500 KB threshold, yet `splitActionIntoChunks` returns a
chunk of 512001 characters — not under the threshold — preceded by a spurious
empty chunk: a single sentence longer than the limit is emitted whole. -/
theorem oversized_sentence_chunk_exceeds_limit :
    jsSize bigAction > SCENE_SIZE_LIMIT ∧
    splitActionIntoChunks bigAction = ["", bigAction] ∧
    bigAction ∈ splitActionIntoChunks bigAction ∧
    SCENE_SIZE_LIMIT < bigAction.length := by
  have hlen := bigAction_length
  have hsize : jsSize bigAction > SCENE_SIZE_LIMIT := by
    have := jsSize_ge_length bigAction
    rw [hlen] at this
    simp only [SCENE_SIZE_LIMIT]
    omega
  refine ⟨hsize, splitActionIntoChunks_bigAction, ?_, ?_⟩
  · rw [splitActionIntoChunks_bigAction]
    simp
  · simp only [SCENE_SIZE_LIMIT]
    omega

theorem chunksGo_bound (sentences : List String) :
    ∀ cur : String, (∀ s ∈ sentences, s.length ≤ SCENE_SIZE_LIMIT) →
      cur.length ≤ SCENE_SIZE_LIMIT + 1 →
      ∀ c ∈ chunksGo sentences cur, c.length ≤ SCENE_SIZE_LIMIT + 1 := by
  induction sentences with
  | nil =>
    intro cur _ hc c hmem
    rw [chunksGo] at hmem
    split at hmem
    · rw [List.mem_singleton.mp hmem]
      exact hc
    · simp at hmem
  | cons s rest ih =>
    intro cur hs hc c hmem
    have hslen : s.length ≤ SCENE_SIZE_LIMIT := hs s (List.mem_cons_self s rest)
    have hrest : ∀ t ∈ rest, t.length ≤ SCENE_SIZE_LIMIT :=
      fun t ht => hs t (List.mem_cons_of_mem s ht)
    rw [chunksGo] at hmem
    split at hmem
    · rcases List.mem_cons.mp hmem with h | h
      · rw [h]; exact hc
      · exact ih s hrest (by omega) c h
    · rename_i hfits
      have hfits' : cur.length + s.length ≤ SCENE_SIZE_LIMIT := by
        rw [not_lt] at hfits
        rw [String.length_append] at hfits
        omega
      by_cases hcur : cur = ""
      · refine ih s hrest (by omega) c ?_
        simpa [hcur] using hmem
      · refine ih (cur ++ " " ++ s) hrest ?_ c (by simpa [hcur] using hmem)
        rw [String.length_append, String.length_append]
        have hone : (" " : String).length = 1 := by decide
        rw [hone]
        omega

/-- C9 (amended): when every sentence produced by the split fits within the
500 KB threshold, every chunk built by `splitActionIntoChunks` has length at
most threshold + 1 (the joining space is not counted by the overflow check,
so a chunk can end exactly one character over). -/
theorem chunks_within_limit_succ (action : String)
    (hs : ∀ s ∈ splitSentences action, s.length ≤ SCENE_SIZE_LIMIT) :
    ∀ c ∈ splitActionIntoChunks action, c.length ≤ SCENE_SIZE_LIMIT + 1 :=
  chunksGo_bound (splitSentences action) "" hs (by simp)

/-- Witness for the amended C9 at the two-sentence action text. -/
theorem chunks_within_limit_succ_witness :
    (∀ s ∈ splitSentences "Hi. Yo.", s.length ≤ SCENE_SIZE_LIMIT) ∧
      ∀ c ∈ splitActionIntoChunks "Hi. Yo.", c.length ≤ SCENE_SIZE_LIMIT + 1 :=
  ⟨by decide, chunks_within_limit_succ "Hi. Yo." (by decide)⟩

/-- C3 counterexample: for the scene
`[scene-heading, character BOB, dialogue Hi., action He waves.]` the
decompose-then-reconstruct round trip moves the action block in front of the
dialogue: the type/content projections of the two sequences differ. -/
theorem decompose_reconstruct_reorders :
    (reconstructScene "s" (decomposeScene c3Blocks).1 (some (decomposeScene c3Blocks).2)).map
        blockSig =
      [("scene-heading", "INT. A - DAY"), ("action", "He waves."), ("character", "BOB"),
       ("dialogue", "Hi.")] ∧
    c3Blocks.map blockSig =
      [("scene-heading", "INT. A - DAY"), ("character", "BOB"), ("dialogue", "Hi."),
       ("action", "He waves.")] ∧
    (reconstructScene "s" (decomposeScene c3Blocks).1 (some (decomposeScene c3Blocks).2)).map
        blockSig ≠ c3Blocks.map blockSig := by
  refine ⟨by decide, by decide, by decide⟩

theorem groupBlocks_types (g : DlgGroup) : ∀ b ∈ groupBlocks g,
    b.type = "character" ∨ b.type = "parenthetical" ∨ b.type = "dialogue" := by
  intro b hb
  rcases g with ⟨c, p, d⟩
  cases p with
  | none =>
    simp [groupBlocks] at hb
    rcases hb with rfl | rfl
    · left; rfl
    · right; right; rfl
  | some q =>
    simp [groupBlocks] at hb
    rcases hb with rfl | rfl | rfl
    · left; rfl
    · right; left; rfl
    · right; right; rfl

theorem flatten_groups_filter_action (gs : List DlgGroup) :
    ((gs.map groupBlocks).flatten.filter fun b => b.type = "action") = [] := by
  rw [List.filter_eq_nil_iff]
  intro b hb
  rw [List.mem_flatten] at hb
  obtain ⟨l, hl, hbl⟩ := hb
  rw [List.mem_map] at hl
  obtain ⟨g, _, rfl⟩ := hl
  rcases groupBlocks_types g b hbl with h | h | h <;> simp [h]

theorem flatten_groups_filter_dialogue (gs : List DlgGroup) :
    ((gs.map groupBlocks).flatten.filter fun b =>
      b.type = "character" ∨ b.type = "dialogue" ∨ b.type = "parenthetical") =
      (gs.map groupBlocks).flatten := by
  rw [List.filter_eq_self]
  intro b hb
  rw [List.mem_flatten] at hb
  obtain ⟨l, hl, hbl⟩ := hb
  rw [List.mem_map] at hl
  obtain ⟨g, _, rfl⟩ := hl
  rcases groupBlocks_types g b hbl with h | h | h <;> simp [h]

theorem dialoguesGo_groups (gs : List DlgGroup)
    (hgs : ∀ g ∈ gs, g.char ≠ "" ∧ (match g.par with | some p => p ≠ "" | none => True)) :
    ∀ cc cp, dialoguesGo (gs.map groupBlocks).flatten cc cp =
      gs.map fun g => ⟨g.char, g.dlg, g.par⟩ := by
  induction gs with
  | nil => intro cc cp; rfl
  | cons g rest ih =>
    intro cc cp
    obtain ⟨hchar, hpar⟩ := hgs g (List.mem_cons_self g rest)
    have hrest : ∀ g ∈ rest, g.char ≠ "" ∧
        (match g.par with | some p => p ≠ "" | none => True) :=
      fun g hg => hgs g (List.mem_cons_of_mem _ hg)
    rcases g with ⟨c, p, d⟩
    cases p with
    | none =>
      simp [groupBlocks, dialoguesGo, orUndefined, hchar, ih hrest]
    | some q =>
      have hq : q ≠ "" := by simpa using hpar
      simp [groupBlocks, dialoguesGo, orUndefined, hchar, hq, ih hrest]

theorem reconstructDialogues_sig (sid : String) (gs : List DlgGroup)
    (hgs : ∀ g ∈ gs, g.char ≠ "" ∧ (match g.par with | some p => p ≠ "" | none => True)) :
    ∀ i, (reconstructDialogues sid (gs.map fun g => ⟨g.char, g.dlg, g.par⟩) i).map blockSig =
      ((gs.map groupBlocks).flatten).map blockSig := by
  induction gs with
  | nil => intro i; rfl
  | cons g rest ih =>
    intro i
    obtain ⟨hchar, hpar⟩ := hgs g (List.mem_cons_self g rest)
    have hrest : ∀ g ∈ rest, g.char ≠ "" ∧
        (match g.par with | some p => p ≠ "" | none => True) :=
      fun g hg => hgs g (List.mem_cons_of_mem _ hg)
    rcases g with ⟨c, p, d⟩
    cases p with
    | none =>
      simp [groupBlocks, reconstructDialogues, blockSig, hchar, ih hrest (i + 1)]
    | some q =>
      have hq : q ≠ "" := by simpa using hpar
      simp [groupBlocks, reconstructDialogues, blockSig, hchar, hq, ih hrest (i + 1)]

/-- C3 (amended): for canonical single-scene sequences — a non-empty scene
heading, at most one non-empty action block whose byte size is within the
500 KB limit, then dialogue groups of a non-empty character block, an
optional non-empty parenthetical block, and a dialogue block — decomposition
into the scene and scene-content records followed by the loader's block
reconstruction restores the sequence up to block ids and numbers: the
type/content projections agree. -/
theorem canonical_scene_roundtrip (sid h : String) (a : Option String) (gs : List DlgGroup)
    (hh : h ≠ "")
    (ha : match a with | some s => s ≠ "" ∧ jsSize s ≤ SCENE_SIZE_LIMIT | none => True)
    (hgs : ∀ g ∈ gs, g.char ≠ "" ∧ (match g.par with | some p => p ≠ "" | none => True)) :
    (reconstructScene sid (decomposeScene (mkScene h a gs)).1
        (some (decomposeScene (mkScene h a gs)).2)).map blockSig =
      (mkScene h a gs).map blockSig := by
  have hdial := dialoguesGo_groups gs hgs
  have hrec := reconstructDialogues_sig sid gs hgs
  cases a with
  | none =>
    have h0 : ¬ jsSize "" > SCENE_SIZE_LIMIT := by decide
    have em : mkScene h none gs =
        ⟨"", "scene-heading", h, none⟩ :: (gs.map groupBlocks).flatten := by
      simp [mkScene]
    have e1 : (mkScene h none gs).find? (fun b => b.type = "scene-heading") =
        some ⟨"", "scene-heading", h, none⟩ := by
      rw [em]
      exact List.find?_cons_of_pos _ (by simp)
    have e2 : (mkScene h none gs).filter (fun b => b.type = "action") = [] := by
      rw [em, List.filter_cons_of_neg (by simp)]
      exact flatten_groups_filter_action gs
    have e3 : ((mkScene h none gs).filter fun b =>
        b.type = "character" ∨ b.type = "dialogue" ∨ b.type = "parenthetical") =
        (gs.map groupBlocks).flatten := by
      rw [em, List.filter_cons_of_neg (by simp)]
      exact flatten_groups_filter_dialogue gs
    have hdec : decomposeScene (mkScene h none gs) =
        (h, { action := some "",
              dialogues := gs.map fun g => ⟨g.char, g.dlg, g.par⟩ }) := by
      simp only [decomposeScene, e1, e2, e3, hdial, List.map_nil]
      have e4 : String.intercalate "\n" ([] : List String) = "" := rfl
      rw [e4, if_neg h0]
    rw [hdec]
    simp [reconstructScene, mkScene, hh, hrec 0, blockSig]
  | some s =>
    obtain ⟨hs, hsize⟩ := ha
    have hns : ¬ jsSize s > SCENE_SIZE_LIMIT := by omega
    have em : mkScene h (some s) gs =
        ⟨"", "scene-heading", h, none⟩ :: ⟨"", "action", s, none⟩ ::
          (gs.map groupBlocks).flatten := by
      simp [mkScene]
    have e1 : (mkScene h (some s) gs).find? (fun b => b.type = "scene-heading") =
        some ⟨"", "scene-heading", h, none⟩ := by
      rw [em]
      exact List.find?_cons_of_pos _ (by simp)
    have e2 : (mkScene h (some s) gs).filter (fun b => b.type = "action") =
        [⟨"", "action", s, none⟩] := by
      rw [em, List.filter_cons_of_neg (by simp), List.filter_cons_of_pos (by simp)]
      rw [flatten_groups_filter_action gs]
    have e3 : ((mkScene h (some s) gs).filter fun b =>
        b.type = "character" ∨ b.type = "dialogue" ∨ b.type = "parenthetical") =
        (gs.map groupBlocks).flatten := by
      rw [em, List.filter_cons_of_neg (by simp), List.filter_cons_of_neg (by simp)]
      exact flatten_groups_filter_dialogue gs
    have hdec : decomposeScene (mkScene h (some s) gs) =
        (h, { action := some s,
              dialogues := gs.map fun g => ⟨g.char, g.dlg, g.par⟩ }) := by
      simp only [decomposeScene, e1, e2, e3, hdial, List.map_cons, List.map_nil]
      have e4 : String.intercalate "\n" [s] = s := rfl
      rw [e4, if_neg hns]
    rw [hdec]
    simp [reconstructScene, mkScene, hh, hs, hrec 0, blockSig]

/-- Witness for the amended C3 at a concrete two-group scene with an action
block and one parenthetical. -/
theorem canonical_scene_roundtrip_witness :
    (reconstructScene "s" (decomposeScene (mkScene "INT. A" (some "He waves.")
        [⟨"BOB", some "(soft)", "hey"⟩, ⟨"AMY", none, "yo"⟩])).1
      (some (decomposeScene (mkScene "INT. A" (some "He waves.")
        [⟨"BOB", some "(soft)", "hey"⟩, ⟨"AMY", none, "yo"⟩])).2)).map blockSig =
    (mkScene "INT. A" (some "He waves.")
        [⟨"BOB", some "(soft)", "hey"⟩, ⟨"AMY", none, "yo"⟩]).map blockSig :=
  canonical_scene_roundtrip "s" "INT. A" (some "He waves.")
    [⟨"BOB", some "(soft)", "hey"⟩, ⟨"AMY", none, "yo"⟩]
    (by decide) (by exact ⟨by decide, by decide⟩)
    (by
      intro g hg
      rcases List.mem_cons.mp hg with rfl | hg2
      · exact ⟨by decide, show "(soft)" ≠ "" by decide⟩
      · rcases List.mem_singleton.mp hg2 with rfl
        exact ⟨by decide, trivial⟩)

/-- C2 counterexample: changing the format of the single action block `"cut"`
to transition retypes it (upper-casing the content) but inserts no
scene-heading block after it, so the resulting document violates the claimed
invariant that every transition block is immediately followed by a scene
heading. -/
theorem formatChange_transition_violates_invariant :
    handleFormatChange c2Blocks (some "b1") "transition" =
      [⟨"b1", "transition", "CUT", none⟩] ∧
    ¬ transitionsTerminated (handleFormatChange c2Blocks (some "b1") "transition") := by
  have he : handleFormatChange c2Blocks (some "b1") "transition" =
      [⟨"b1", "transition", "CUT", none⟩] := by decide
  refine ⟨he, ?_⟩
  rw [he]
  intro hinv
  have h2 := hinv 0 (by decide)
  simp at h2

theorem jsFindIndex_lt_length (p : Block → Bool) :
    ∀ (l : List Block) (i : Nat), jsFindIndex p l = some i → i < l.length := by
  intro l
  induction l with
  | nil => intro i h; simp [jsFindIndex] at h
  | cons b rest ih =>
    intro i h
    rw [jsFindIndex] at h
    split at h
    · cases h
      simp
    · rcases Option.map_eq_some'.mp h with ⟨j, hj, rfl⟩
      have := ih j hj
      simp only [List.length_cons]
      omega

theorem jsFindIndex_pred (p : Block → Bool) :
    ∀ (l : List Block) (i : Nat) (b : Block),
      jsFindIndex p l = some i → l[i]? = some b → p b = true := by
  intro l
  induction l with
  | nil => intro i b h; simp [jsFindIndex] at h
  | cons x rest ih =>
    intro i b h hget
    rw [jsFindIndex] at h
    split at h
    · cases h
      rename_i hp
      simp only [List.getElem?_cons_zero, Option.some.injEq] at hget
      rw [← hget]
      exact hp
    · rcases Option.map_eq_some'.mp h with ⟨j, hj, rfl⟩
      exact ih j b hj (by simpa using hget)

theorem listInsertAt_getElem_self (l : List Block) (n : Nat) (b : Block) (h : n ≤ l.length) :
    (listInsertAt l n b)[n]? = some b := by
  rw [listInsertAt]
  rw [List.getElem?_append_right (by rw [List.length_take]; omega)]
  simp [List.length_take, Nat.min_eq_left h]

/-- C2 (amended): the transition/scene-heading adjacency is installed only by
the operations that create transitions.  (1) Enter inside a transition block
inserts an empty scene-heading block right after it; (2) a content change
that turns a non-transition, non-parenthetical block into a transition
inserts an empty scene-heading block right after it; (3) so does a forced
(suggestion-driven) retype to transition.  `handleFormatChange` (and Tab) do
not, so the invariant does not hold after every operation. -/
theorem transition_scene_heading_insertion :
    (∀ (blocks : List Block) (blockId newId content : String) (caretPos : Nat)
       (fastPress : Bool) (idx : Nat) (cur : Block),
       jsFindIndex (fun b => b.id = blockId) blocks = some idx →
       blocks[idx]? = some cur → cur.type = "transition" →
       (handleEnterKey blocks blockId newId content caretPos fastPress)[idx + 1]? =
         some ⟨newId, "scene-heading", "", none⟩) ∧
    (∀ (blocks : List Block) (id newId newContent : String) (idx : Nat) (cur : Block),
       jsFindIndex (fun b => b.id = id) blocks = some idx →
       blocks[idx]? = some cur →
       jsTrim newContent ≠ "" → cur.type ≠ "parenthetical" → cur.type ≠ "transition" →
       isTransitionContent newContent = true →
       (handleContentChange blocks id newId newContent none)[idx + 1]? =
         some ⟨newId, "scene-heading", "", none⟩) ∧
    (∀ (blocks : List Block) (id newId newContent : String) (idx : Nat) (cur : Block),
       jsFindIndex (fun b => b.id = id) blocks = some idx →
       blocks[idx]? = some cur → jsTrim newContent ≠ "" →
       (handleContentChange blocks id newId newContent (some "transition"))[idx + 1]? =
         some ⟨newId, "scene-heading", "", none⟩) := by
  refine ⟨?_, ?_, ?_⟩
  · intro blocks blockId newId content caretPos fastPress idx cur hfind hget hcur
    have hlt : idx < blocks.length := jsFindIndex_lt_length _ blocks idx hfind
    simp only [handleEnterKey, hfind, hget]
    rw [if_pos hcur]
    by_cases ht : jsTrim (content.take caretPos) ≠ ""
    · rw [if_pos ht]
      exact listInsertAt_getElem_self _ _ _ (by simp; omega)
    · rw [if_neg ht]
      exact listInsertAt_getElem_self _ _ _ (by omega)
  · intro blocks id newId newContent idx cur hfind hget hne hpar htr hpat
    have hlt : idx < blocks.length := jsFindIndex_lt_length _ blocks idx hfind
    have hid : cur.id = id := by
      have := jsFindIndex_pred _ blocks idx cur hfind hget
      simpa using this
    have hupd : contentChangeUpdate id newContent cur =
        { cur with type := "transition", content := jsToUpper (jsTrim newContent) } := by
      rw [contentChangeUpdate, if_neg (by simp [hid]), if_neg hpar, if_pos ⟨hpat, htr⟩]
    have hmap : (blocks.map (contentChangeUpdate id newContent))[idx]? =
        some { cur with type := "transition", content := jsToUpper (jsTrim newContent) } := by
      rw [List.getElem?_map, hget]
      show some (contentChangeUpdate id newContent cur) = _
      rw [hupd]
    simp only [handleContentChange, hfind, hget]
    rw [if_neg hne]
    simp only [hmap]
    rw [if_pos (by simp [htr])]
    exact listInsertAt_getElem_self _ _ _ (by simp [List.length_map]; omega)
  · intro blocks id newId newContent idx cur hfind hget hne
    have hlt : idx < blocks.length := jsFindIndex_lt_length _ blocks idx hfind
    simp only [handleContentChange, hfind, hget]
    rw [if_neg hne]
    exact listInsertAt_getElem_self _ _ _ (by rw [List.length_map]; omega)

/-- Witness for the amended C2: pressing Enter at the end of the transition
block `"CUT TO:"` yields an empty scene-heading block right after it. -/
theorem transition_scene_heading_insertion_witness :
    jsFindIndex (fun b => b.id = "b1") [⟨"b1", "transition", "CUT TO:", none⟩] = some 0 ∧
    (handleEnterKey [⟨"b1", "transition", "CUT TO:", none⟩] "b1" "b2" "CUT TO:" 7 false)[1]? =
      some ⟨"b2", "scene-heading", "", none⟩ :=
  ⟨by decide,
    transition_scene_heading_insertion.1 [⟨"b1", "transition", "CUT TO:", none⟩]
      "b1" "b2" "CUT TO:" 7 false 0 ⟨"b1", "transition", "CUT TO:", none⟩
      (by decide) (by decide) (by decide)⟩

/-- C1: with the scene lock held, unexpired, by another user, `saveScene`
returns `success = false` with a lock-conflict entry — but it does not
perform zero remote writes: the unconditional `releaseLock` in the `finally`
block issues a `deleteDoc` against the (foreign) lock record. -/
theorem saveScene_foreign_lock_issues_delete :
    saveScene c1Store "user-a" "scene-1" [] false 1000000000 =
      ({ success := false, error := some "Scene is being edited by another user",
         conflicts := [⟨"scene-1", "another-user@example.com"⟩] },
       [WriteOp.deleteLock "scene-1"]) ∧
    (saveScene c1Store "user-a" "scene-1" [] false 1000000000).2 ≠ [] := by
  constructor
  · rfl
  · intro h
    simp [saveScene, c1Store] at h

theorem organizeGo_single (b : Block) (st : PageState) :
    organizeGo [b] st = addBlockToPage st b := rfl

theorem organizeGo_cons_cons (b nb : Block) (rest2 : List Block) (st : PageState) :
    organizeGo (b :: nb :: rest2) st =
      if b.type = "character" ∧ (nb.type = "dialogue" ∨ nb.type = "parenthetical") then
        organizeGo (nb :: rest2) (addBlockToPage
          (if st.height + (calculateBlockHeight b + calculateBlockHeight nb) >
              MAX_PAGE_HEIGHT ∧ st.page ≠ [] then flushPage st else st) b)
      else organizeGo (nb :: rest2) (addBlockToPage st b) := rfl

theorem join_addBlockToPage (st : PageState) (b : Block) :
    (addBlockToPage st b).pages.flatten ++ (addBlockToPage st b).page =
      st.pages.flatten ++ (st.page ++ [b]) := by
  simp only [addBlockToPage]
  split_ifs with h
  · simp
  · simp

theorem organizeGo_join (l : List Block) :
    ∀ st : PageState, (organizeGo l st).pages.flatten ++ (organizeGo l st).page =
      st.pages.flatten ++ st.page ++ l := by
  induction l with
  | nil => intro st; simp [organizeGo]
  | cons b rest ih =>
    intro st
    cases rest with
    | nil =>
      rw [organizeGo_single, join_addBlockToPage]
      simp
    | cons nb rest2 =>
      rw [organizeGo_cons_cons]
      by_cases hbr : b.type = "character" ∧ (nb.type = "dialogue" ∨ nb.type = "parenthetical")
      · rw [if_pos hbr]
        by_cases hfl : st.height + (calculateBlockHeight b + calculateBlockHeight nb) >
            MAX_PAGE_HEIGHT ∧ st.page ≠ []
        · rw [if_pos hfl, ih, join_addBlockToPage]
          simp [flushPage]
        · rw [if_neg hfl, ih, join_addBlockToPage]
          simp
      · rw [if_neg hbr, ih, join_addBlockToPage]
        simp

theorem addBlockToPage_pagesNE (st : PageState) (b : Block)
    (h : ∀ p ∈ st.pages, p ≠ []) : ∀ p ∈ (addBlockToPage st b).pages, p ≠ [] := by
  simp only [addBlockToPage]
  split_ifs with hc
  · intro p hp
    rcases List.mem_append.mp hp with h1 | h2
    · exact h p h1
    · rw [List.mem_singleton.mp h2]
      exact hc.2
  · exact h

theorem organizeGo_pagesNE (l : List Block) :
    ∀ st : PageState, (∀ p ∈ st.pages, p ≠ []) →
      ∀ p ∈ (organizeGo l st).pages, p ≠ [] := by
  induction l with
  | nil => intro st h; exact h
  | cons b rest ih =>
    intro st h
    cases rest with
    | nil =>
      rw [organizeGo_single]
      exact ih (addBlockToPage st b) (addBlockToPage_pagesNE st b h)
    | cons nb rest2 =>
      rw [organizeGo_cons_cons]
      by_cases hbr : b.type = "character" ∧ (nb.type = "dialogue" ∨ nb.type = "parenthetical")
      · rw [if_pos hbr]
        by_cases hfl : st.height + (calculateBlockHeight b + calculateBlockHeight nb) >
            MAX_PAGE_HEIGHT ∧ st.page ≠ []
        · rw [if_pos hfl]
          refine ih _ (addBlockToPage_pagesNE _ b ?_)
          intro p hp
          rcases List.mem_append.mp hp with h1 | h2
          · exact h p h1
          · rw [List.mem_singleton.mp h2]
            exact hfl.2
        · rw [if_neg hfl]
          exact ih _ (addBlockToPage_pagesNE st b h)
      · rw [if_neg hbr]
        exact ih _ (addBlockToPage_pagesNE st b h)

theorem addBlockToPage_getLast (st : PageState) (b : Block) :
    ((addBlockToPage st b).page).getLast? = some b := by
  simp only [addBlockToPage]
  split_ifs with h
  · simp
  · simp [List.getLast?_concat]

theorem addBlockToPage_inv (st : PageState) (b : Block) (hinv : PagInv st)
    (hcoup : (b.type = "dialogue" ∨ b.type = "parenthetical") →
      (st.page.getLast?).map Block.type = some "character" →
      st.height + calculateBlockHeight b ≤ MAX_PAGE_HEIGHT) :
    PagInv (addBlockToPage st b) := by
  obtain ⟨hsum, hne, hinit, hchain⟩ := hinv
  simp only [PagInv, addBlockToPage]
  split_ifs with hc
  · refine ⟨by simp [heightSum], ?_, by simp, ?_⟩
    · intro p hp
      rcases List.mem_append.mp hp with h1 | h2
      · exact hne p h1
      · rw [List.mem_singleton.mp h2]
        exact hc.2
    · rw [keepTogetherOK] at hchain ⊢
      rw [List.chain'_append]
      refine ⟨hchain, List.chain'_singleton _, ?_⟩
      intro x hx y hy
      rw [List.getLast?_concat] at hx
      simp only [Option.mem_def, Option.some.injEq] at hx
      simp only [List.head?_cons, Option.mem_def, Option.some.injEq] at hy
      subst hx
      subst hy
      rintro ⟨hlast, hdlg⟩
      have hb : b.type = "dialogue" ∨ b.type = "parenthetical" := by
        simpa using hdlg
      have := hcoup hb hlast
      omega
  · refine ⟨?_, hne, by simp, ?_⟩
    · simp only [heightSum, List.map_append, List.sum_append, List.map_cons, List.map_nil,
        List.sum_cons, List.sum_nil] at hsum ⊢
      omega
    · by_cases hp : st.page = []
      · rw [hinit hp, hp]
        simp only [List.nil_append]
        exact List.chain'_singleton _
      · rw [keepTogetherOK] at hchain ⊢
        rw [List.chain'_append] at hchain ⊢
        obtain ⟨h1, _, h3⟩ := hchain
        refine ⟨h1, List.chain'_singleton _, ?_⟩
        intro x hx y hy
        simp only [List.head?_cons, Option.mem_def, Option.some.injEq] at hy
        subst hy
        have hbase := h3 x hx st.page (by simp)
        have hhead : (st.page ++ [b]).head? = st.page.head? := by
          cases hpp : st.page with
          | nil => exact absurd hpp hp
          | cons p0 ptl => rfl
        rw [hhead]
        exact hbase

theorem organizeGo_inv (l : List Block) :
    ∀ st : PageState, pairsFit l → PagInv st → PagCoupling st l →
      PagInv (organizeGo l st) := by
  induction l with
  | nil => intro st _ hinv _; exact hinv
  | cons b rest ih =>
    intro st hpf hinv hcoup
    have hcoupb : (b.type = "dialogue" ∨ b.type = "parenthetical") →
        (st.page.getLast?).map Block.type = some "character" →
        st.height + calculateBlockHeight b ≤ MAX_PAGE_HEIGHT :=
      fun hb hlast => hcoup b rfl hb hlast
    cases rest with
    | nil =>
      show PagInv (organizeGo [] (addBlockToPage st b))
      refine ih (addBlockToPage st b) List.chain'_nil
        (addBlockToPage_inv st b hinv hcoupb) ?_
      intro d hd
      simp at hd
    | cons nb rest2 =>
      have hR := (List.chain'_cons.mp hpf).1
      have htail : pairsFit (nb :: rest2) := (List.chain'_cons.mp hpf).2
      rw [organizeGo_cons_cons]
      by_cases hbr : b.type = "character" ∧ (nb.type = "dialogue" ∨ nb.type = "parenthetical")
      · have hcomb := hR hbr.1 hbr.2
        rw [if_pos hbr]
        by_cases hfl : st.height + (calculateBlockHeight b + calculateBlockHeight nb) >
            MAX_PAGE_HEIGHT ∧ st.page ≠ []
        · rw [if_pos hfl]
          obtain ⟨hsum, hne, hinit, hchain⟩ := hinv
          have hstep : addBlockToPage (flushPage st) b =
              ⟨st.pages ++ [st.page], [b], calculateBlockHeight b⟩ := by
            simp [addBlockToPage, flushPage]
          rw [hstep]
          refine ih _ htail ⟨by simp [heightSum], ?_, by simp, ?_⟩ ?_
          · intro p hp
            rcases List.mem_append.mp hp with h1 | h2
            · exact hne p h1
            · rw [List.mem_singleton.mp h2]
              exact hfl.2
          · rw [keepTogetherOK] at hchain ⊢
            rw [List.chain'_append]
            refine ⟨hchain, List.chain'_singleton _, ?_⟩
            intro x hx y hy
            simp only [List.head?_cons, Option.mem_def, Option.some.injEq] at hy
            subst hy
            rintro ⟨_, hdlg⟩
            simp only [List.head?_cons, Option.map_some'] at hdlg
            rw [hbr.1] at hdlg
            rcases hdlg with h | h <;> simp at h
          · intro d hd hdlg _
            simp only [List.head?_cons, Option.some.injEq] at hd
            subst hd
            simpa using hcomb
        · rw [if_neg hfl]
          refine ih _ htail (addBlockToPage_inv st b hinv hcoupb) ?_
          intro d hd hdlg hlast
          simp only [List.head?_cons, Option.some.injEq] at hd
          subst hd
          rw [addBlockToPage_getLast] at hlast
          simp only [Option.map_some', Option.some.injEq] at hlast
          have hd2 : (addBlockToPage st b).height = st.height + calculateBlockHeight b := by
            simp only [addBlockToPage]
            split_ifs with hc
            · exact absurd ⟨by omega, hc.2⟩ hfl
            · rfl
          rw [hd2]
          by_cases hp : st.page = []
          · have h0 : st.height = 0 := by
              rw [hinv.1, hp]
              simp [heightSum]
            omega
          · have hjoint : ¬ st.height + (calculateBlockHeight b + calculateBlockHeight nb) >
                MAX_PAGE_HEIGHT := fun ha => hfl ⟨ha, hp⟩
            omega
      · rw [if_neg hbr]
        refine ih _ htail (addBlockToPage_inv st b hinv hcoupb) ?_
        intro d hd hdlg hlast
        simp only [List.head?_cons, Option.some.injEq] at hd
        subst hd
        rw [addBlockToPage_getLast] at hlast
        simp only [Option.map_some', Option.some.injEq] at hlast
        exact absurd ⟨hlast, hdlg⟩ hbr

/-- C4 (amended): `organizeBlocksIntoPages` returns no empty page and its
pages flatten back to the input in order; and whenever every character block
and its immediately following dialogue or parenthetical partner have
combined height at most one page (55 line-units), no such pair is split
across a page boundary.  The original claim fails for pairs taller than a
page: after the keep-together pre-flush the overflow check still separates
them (see the counterexample). -/
theorem paginate_keep_together (blocks : List Block) :
    (∀ p ∈ organizeBlocksIntoPages blocks, p ≠ []) ∧
    (organizeBlocksIntoPages blocks).flatten = blocks ∧
    (pairsFit blocks → keepTogetherOK (organizeBlocksIntoPages blocks)) := by
  have hjoin := organizeGo_join blocks ⟨[], [], 0⟩
  have hne := organizeGo_pagesNE blocks ⟨[], [], 0⟩ (by simp)
  simp only [List.flatten_nil, List.nil_append] at hjoin
  refine ⟨?_, ?_, ?_⟩
  · intro p hp
    rw [organizeBlocksIntoPages] at hp
    split_ifs at hp with hpage
    · rcases List.mem_append.mp hp with h1 | h2
      · exact hne p h1
      · rw [List.mem_singleton.mp h2]
        exact hpage
    · exact hne p hp
  · rw [organizeBlocksIntoPages]
    split_ifs with hpage
    · rw [List.flatten_append]
      simpa using hjoin
    · rw [not_not] at hpage
      rw [hpage] at hjoin
      simpa using hjoin
  · intro hpf
    have hinv := organizeGo_inv blocks ⟨[], [], 0⟩ hpf
      ⟨by simp [heightSum], by simp, by simp, List.chain'_singleton _⟩
      (by intro d hd hdlg h2; simp at h2)
    obtain ⟨_, _, hinit, hchain⟩ := hinv
    rw [organizeBlocksIntoPages]
    split_ifs with hpage
    · exact hchain
    · rw [not_not] at hpage
      rw [hinit hpage]
      exact List.chain'_nil

/-- C4 counterexample: the character block `"BOB"` followed by a dialogue
block of 1951 characters (height 2 + 54 = 56 line-units, more than the page
budget 55) is split by `organizeBlocksIntoPages`: the character block ends
page one and the dialogue block opens page two, violating the claimed
keep-together property. -/
theorem c4dlg_height : calculateBlockHeight c4dlg = 540 := by
  have hlen : c4dlg.content.length = 1951 := by
    show (String.mk (List.replicate 1951 'a')).length = 1951
    rw [String.length_mk, List.length_replicate]
  rw [calculateBlockHeight, hlen]
  decide

theorem organize_c4Blocks : organizeBlocksIntoPages c4Blocks = [[c4char], [c4dlg]] := by
  have hchar : calculateBlockHeight c4char = 20 := rfl
  have hgo : organizeGo c4Blocks ⟨[], [], 0⟩ = ⟨[[c4char]], [c4dlg], 540⟩ := by
    show organizeGo (c4char :: c4dlg :: []) ⟨[], [], 0⟩ = _
    rw [organizeGo_cons_cons, if_pos ⟨rfl, Or.inl rfl⟩,
      if_neg (fun h => h.2 rfl)]
    have hadd1 : addBlockToPage ⟨[], [], 0⟩ c4char = ⟨[], [c4char], 20⟩ := by
      rw [addBlockToPage, if_neg (fun h => h.2 rfl)]
      simp [hchar]
    rw [hadd1, organizeGo_single, addBlockToPage,
      if_pos ⟨by rw [c4dlg_height]; simp [MAX_PAGE_HEIGHT], by simp⟩, c4dlg_height]
    rfl
  rw [organizeBlocksIntoPages]
  simp only [hgo]
  rw [if_pos (by simp)]
  rfl

/-- C4 counterexample: the character block `"BOB"` followed by a dialogue
block of 1951 characters (height 2 + 54 = 56 line-units, more than the page
budget 55) is split by `organizeBlocksIntoPages`: the character block ends
page one and the dialogue block opens page two, violating the claimed
keep-together property. -/
theorem tall_pair_is_split :
    (c4Blocks[0]?).map Block.type = some "character" ∧
    (c4Blocks[1]?).map Block.type = some "dialogue" ∧
    ((organizeBlocksIntoPages c4Blocks)[0]?).map (List.map Block.id) = some ["c"] ∧
    ((organizeBlocksIntoPages c4Blocks)[1]?).map (List.map Block.id) = some ["d"] ∧
    ¬ keepTogetherOK (organizeBlocksIntoPages c4Blocks) := by
  refine ⟨rfl, rfl, ?_, ?_, ?_⟩
  · rw [organize_c4Blocks]; rfl
  · rw [organize_c4Blocks]; rfl
  · rw [organize_c4Blocks]
    intro hk
    exact (List.chain'_cons.mp hk).1 ⟨rfl, Or.inl rfl⟩

/-- Witness for the amended C4 at the five-block demo scene: the pair
heights fit, so the keep-together property holds. -/
theorem paginate_keep_together_witness :
    pairsFit [⟨"1", "scene-heading", "INT. COFFEE SHOP - DAY", none⟩,
        ⟨"2", "action", "A quiet morning scene.", none⟩,
        ⟨"3", "character", "SARAH", none⟩,
        ⟨"4", "parenthetical", "(checking her phone)", none⟩,
        ⟨"5", "dialogue", "This cannot be happening. Not today of all days.", none⟩] ∧
    keepTogetherOK (organizeBlocksIntoPages
      [⟨"1", "scene-heading", "INT. COFFEE SHOP - DAY", none⟩,
        ⟨"2", "action", "A quiet morning scene.", none⟩,
        ⟨"3", "character", "SARAH", none⟩,
        ⟨"4", "parenthetical", "(checking her phone)", none⟩,
        ⟨"5", "dialogue", "This cannot be happening. Not today of all days.", none⟩]) :=
  ⟨List.chain'_cons.mpr ⟨by decide, List.chain'_cons.mpr ⟨by decide,
      List.chain'_cons.mpr ⟨by decide, List.chain'_cons.mpr ⟨by decide,
      List.chain'_singleton _⟩⟩⟩⟩,
    (paginate_keep_together
      [⟨"1", "scene-heading", "INT. COFFEE SHOP - DAY", none⟩,
        ⟨"2", "action", "A quiet morning scene.", none⟩,
        ⟨"3", "character", "SARAH", none⟩,
        ⟨"4", "parenthetical", "(checking her phone)", none⟩,
        ⟨"5", "dialogue", "This cannot be happening. Not today of all days.", none⟩]).2.2
      (List.chain'_cons.mpr ⟨by decide, List.chain'_cons.mpr ⟨by decide,
      List.chain'_cons.mpr ⟨by decide, List.chain'_cons.mpr ⟨by decide,
      List.chain'_singleton _⟩⟩⟩⟩)⟩

end Screenplay
